import Mathlib

/-
Verification of the DynamiX rotation scheduler (src/dynamiXMain.py).

The definitions below are a shallow embedding of the automation core of
`dynamiXMain.py`: the cooldown ("used collections") store, the user
exemption set, the time-block resolver `get_current_time_block`, the
per-library selection step of `main` (lines 352-412), the reset-and-retry
branch (lines 414-425), the sleep/cancellation skeleton of the `while`
loop (lines 332, 438-440), the file loaders `load_used_collections` /
`load_user_exemptions`, and the special-case handler
`handle_new_episodes_pinning`.

Modelling conventions:
- Collection titles are `String`s; a collection carries its title and its
  item count (`len(collection.items())` in the source).
- Calendar dates are modelled as `Nat` day ordinals; Python compares
  `datetime.date` values, which is order-isomorphic to `Nat` comparison,
  and `current_date + timedelta(days=d)` becomes `today + d`.
- Python `dict`s keyed by title are modelled as insertion-ordered
  association lists `List (String × Nat)`; `title in dict` is membership
  in the list of keys, and `dict[title] = v` overwrites in place or
  appends, as Python does.
- `"HH:MM"` wall-clock strings are compared lexicographically by code
  point, exactly as Python's `<=` / `<` on `str`; `strLt`/`strLe` below
  implement that order on `String.data`.
- `random.SystemRandom().sample(pool, k)` is modelled by `sampleR`, a
  without-replacement selection driven by an arbitrary stream of random
  numbers `rs : List Nat`: at each step an index into the remaining pool
  is taken from the stream (mod the pool size) and that element is
  removed.  All theorems quantify over the stream, so they hold for every
  randomness outcome.
- Remote pin/unpin calls can fail per collection (caught `except` blocks
  in the source); the environment's outcome is a function
  `pinOk : String → Bool`.
-/

-- ------------------------------ Strings as "HH:MM" times ------------------------------

/-- Lexicographic (code-point) comparison of character lists, the order Python
uses for `str < str`. -/
def strLtChars : List Char → List Char → Bool
  | [], [] => false
  | [], _ :: _ => true
  | _ :: _, [] => false
  | c :: cs, d :: ds =>
    if c.toNat < d.toNat then true
    else if d.toNat < c.toNat then false
    else strLtChars cs ds

/-- Python's `a < b` on strings. -/
def strLt (a b : String) : Bool := strLtChars a.data b.data

/-- Python's `a <= b` on strings (total order, so `a <= b ↔ ¬ b < a`). -/
def strLe (a b : String) : Bool := !(strLt b a)

-- ------------------------------ Data model ------------------------------

/-- A Plex collection as seen by the scheduler: its title and its item count
(`len(collection.items())`). -/
structure Collection where
  title : String
  itemCount : Nat
deriving DecidableEq

/-- The cooldown map persisted in `used_collections.json`: collection title →
expiry date, insertion-ordered like a Python dict. -/
abbrev CooldownMap := List (String × Nat)

/-- Keys of a cooldown map (what `title in used_collections` consults). -/
def keysOf (m : CooldownMap) : List String := m.map Prod.fst

/-- Python dict assignment `m[k] = v`: overwrite in place if the key exists,
otherwise append at the end. -/
def dictInsert (m : CooldownMap) (k : String) (v : Nat) : CooldownMap :=
  if k ∈ keysOf m then
    m.map (fun p => if p.1 = k then (k, v) else p)
  else
    m ++ [(k, v)]

-- ------------------------------ ExclusionStore ------------------------------

/-- Step 1 of every cycle (`main`, lines 337-340): keep exactly the entries of
the cooldown map whose expiry date is strictly after the current date. -/
def cleanCooldowns (used : CooldownMap) (today : Nat) : CooldownMap :=
  used.filter (fun p => decide (today < p.2))

/-- `log_and_update_exclusion_list` (lines 244-260): for each pinned collection
set `used[title] = today + exclusion_days`, in order. -/
def recordPinned (pinned : List Collection) (used : CooldownMap) (expiry : Nat) :
    CooldownMap :=
  pinned.foldl (fun m c => dictInsert m c.title expiry) used

-- ------------------------------ Persisted-state loaders ------------------------------

/-- The three observable states of a persisted JSON file: missing from disk,
present but unparseable (`json.load` raises `JSONDecodeError`), or parseable
with some decoded value. -/
inductive FileState (α : Type) where
  | absent
  | corrupt
  | parsed (value : α)
deriving DecidableEq

/-- `load_used_collections` (lines 113-123): returns `{}` when the file does
not exist; otherwise `json.load` either returns the decoded dict or raises
(the raise is NOT caught in this function, so it propagates). -/
def load_used_collections (fs : FileState CooldownMap) : Except String CooldownMap :=
  match fs with
  | .absent => .ok []
  | .corrupt => .error "json.decoder.JSONDecodeError"
  | .parsed m => .ok m

/-- `load_user_exemptions` (lines 136-146): same structure as
`load_used_collections`, returning a list of exempt titles. -/
def load_user_exemptions (fs : FileState (List String)) : Except String (List String) :=
  match fs with
  | .absent => .ok []
  | .corrupt => .error "json.decoder.JSONDecodeError"
  | .parsed l => .ok l

-- ------------------------------ TimeBlockResolver ------------------------------

/-- One configured time block: `{"start_time": .., "end_time": .., "limit": ..}`;
`limit` may be absent (Python `details.get("limit", default)`). -/
structure TimeBlock where
  startTime : String
  endTime : String
  limit : Option Nat
deriving DecidableEq

/-- A weekday's block table as stored in the config: either malformed (the
`isinstance(day_blocks, dict)` check fails) or an ordered list of named
blocks. -/
inductive DayBlocksData where
  | malformed
  | blocks (bs : List (String × TimeBlock))
deriving DecidableEq

/-- Per-library `libraries_settings` entry: an optional `default_limit` and the
`time_blocks` table keyed by weekday name. -/
structure LibrarySettings where
  defaultLimit : Option Nat
  timeBlocks : List (String × DayBlocksData)
deriving DecidableEq

/-- The configuration fields the automation loop reads. -/
structure Config where
  minItems : Nat
  exclusionDays : Nat
  defaultLimits : List (String × Nat)
  librarySettings : List (String × LibrarySettings)
deriving DecidableEq

/-- `time_blocks.get(current_day, {})` for a library, with a missing
`libraries_settings` entry behaving as `{}`. -/
def dayBlocksFor (cfg : Config) (libraryName day : String) : DayBlocksData :=
  (((cfg.librarySettings.lookup libraryName).getD ⟨none, []⟩).timeBlocks.lookup day).getD
    (.blocks [])

/-- The per-block test `details.get("start_time") <= current_time < details.get("end_time")`. -/
def timeInBlock (time : String) (b : TimeBlock) : Bool :=
  strLe b.startTime time && strLt time b.endTime

/-- `get_current_time_block` (lines 262-292): first matching block of the
current weekday wins; malformed day table, empty table or no match yield
`("Default", default_limits.get(library, 5))`. -/
def get_current_time_block (cfg : Config) (libraryName day time : String) :
    String × Nat :=
  match dayBlocksFor cfg libraryName day with
  | .malformed => ("Default", (cfg.defaultLimits.lookup libraryName).getD 5)
  | .blocks dayBlocks =>
    match dayBlocks.find? (fun p => timeInBlock time p.2) with
    | some p => (p.1, p.2.limit.getD ((cfg.defaultLimits.lookup libraryName).getD 5))
    | none => ("Default", (cfg.defaultLimits.lookup libraryName).getD 5)

/-- `library_settings.get("default_limit", 5)` (`main`, line 367). -/
def defaultLimitFor (cfg : Config) (libraryName : String) : Nat :=
  ((cfg.librarySettings.lookup libraryName).getD ⟨none, []⟩).defaultLimit.getD 5

/-- `final_limit = current_limit if current_block != "Default" else default_limit`
(`main`, line 370). -/
def finalLimitFor (cfg : Config) (libraryName day time : String) : Nat :=
  if (get_current_time_block cfg libraryName day time).1 ≠ "Default" then
    (get_current_time_block cfg libraryName day time).2
  else
    defaultLimitFor cfg libraryName

-- ------------------------------ SelectionEngine ------------------------------

/-- The filter of `main` lines 373-378: item count at least `minimum_items`,
title not in the cooldown dict, title not in the exemption list. -/
def isValidCollection (minItems : Nat) (used : CooldownMap) (exemptions : List String)
    (c : Collection) : Bool :=
  decide (minItems ≤ c.itemCount) && !(decide (c.title ∈ keysOf used))
    && !(decide (c.title ∈ exemptions))

/-- `valid_collections` (`main`, lines 373-378). -/
def validCollections (minItems : Nat) (used : CooldownMap) (exemptions : List String)
    (cols : List Collection) : List Collection :=
  cols.filter (isValidCollection minItems used exemptions)

/-- Model of `random.SystemRandom().sample(pool, k)` driven by a stream `rs` of
random draws: pick the element at index `rs.head % |pool|` of the remaining
pool and remove it, `k` times.  Quantifying over `rs` covers every randomness
outcome of the source's sampling without replacement. -/
def sampleR {α : Type} : Nat → List α → List Nat → List α
  | 0, _, _ => []
  | _ + 1, [], _ => []
  | k + 1, a :: t, rs =>
    let j := rs.headD 0 % (a :: t).length
    (a :: t).getD j a :: sampleR k ((a :: t).eraseIdx j) rs.tail

/-- Outcome of the per-library selection step of `main` (lines 373-396):
either the insufficiency signal that triggers `reset_needed = True`, or the
sampled list `collections_to_pin`. -/
inductive SelectOutcome where
  | insufficient
  | selected (toPin : List Collection)
deriving DecidableEq

/-- The selection step of `main` (lines 373-396): filter, compare against the
limit, then sample `min(len(valid), final_limit)` collections.  (When
`final_limit = 0` and the eligible set is empty the source `continue`s without
pinning, which this model renders as `.selected []` — the same observable
outcome: no pins and no reset.) -/
def selectStep (cols : List Collection) (finalLimit minItems : Nat)
    (used : CooldownMap) (exemptions : List String) (rs : List Nat) : SelectOutcome :=
  if (validCollections minItems used exemptions cols).length < finalLimit then
    .insufficient
  else
    .selected (sampleR (min (validCollections minItems used exemptions cols).length finalLimit)
      (validCollections minItems used exemptions cols) rs)

/-- The pin loop of `main` (lines 401-409): attempt to pin each selected
collection; only the ones whose pin call succeeds are appended to
`previous_pinned`. -/
def pinSelected (toPin : List Collection) (pinOk : String → Bool) : List Collection :=
  toPin.filter (fun c => pinOk c.title)

-- ------------------------------ RotationLoop: one cycle ------------------------------

/-- The per-library `for` loop of `main` (lines 355-412), returning
`(reset_needed, previous_pinned, processed library names)`.  On insufficiency
the loop `break`s: no later library is processed. -/
def processLibraries (cfg : Config) (day time : String) (used : CooldownMap)
    (exemptions : List String) (pinOk : String → Bool) (rsFor : String → List Nat) :
    List (String × List Collection) → Bool × List Collection × List String
  | [] => (false, [], [])
  | (name, cols) :: rest =>
    match selectStep cols (finalLimitFor cfg name day time) cfg.minItems used
        exemptions (rsFor name) with
    | .insufficient => (true, [], [name])
    | .selected toPin =>
      let r := processLibraries cfg day time used exemptions pinOk rsFor rest
      (r.1, pinSelected toPin pinOk ++ r.2.1, name :: r.2.2)

/-- Observable outcome of one iteration of the `while` loop of `main`:
the cooldown map afterwards, the successfully pinned collections, whether the
reset branch fired, whether the iteration ended in the sleep call, and which
libraries the selection loop reached. -/
structure CycleOutcome where
  usedAfter : CooldownMap
  pinned : List Collection
  resetNeeded : Bool
  slept : Bool
  attempted : List String
deriving DecidableEq

/-- One iteration of the `while` loop of `main` (lines 332-440): clean the
cooldown map, run the per-library selection loop, then either take the reset
branch (clear the exclusion store, `continue` with no sleep) or record the
pinned collections and sleep. -/
def runCycle (cfg : Config) (libraries : List (String × List Collection))
    (used0 : CooldownMap) (exemptions : List String) (today : Nat)
    (day time : String) (pinOk : String → Bool) (rsFor : String → List Nat) :
    CycleOutcome :=
  let used := cleanCooldowns used0 today
  let r := processLibraries cfg day time used exemptions pinOk rsFor libraries
  if r.1 then
    { usedAfter := [], pinned := r.2.1, resetNeeded := true, slept := false,
      attempted := r.2.2 }
  else
    { usedAfter := recordPinned r.2.1 used (today + cfg.exclusionDays),
      pinned := r.2.1, resetNeeded := false, slept := true, attempted := r.2.2 }

-- ------------------------------ Loop sleep/cancellation skeleton ------------------------------

/-- Temporal skeleton of the `while not stop_event.is_set()` loop (lines 332
and 438-440): the stop flag is polled only at the top of a cycle; the body then
runs and `time.sleep(pinning_interval)` advances time by the full interval in
one uninterruptible call, with no poll inside the sleep.  `signalAt` is the
time at which cancellation is signalled, `now` the current time, and the
result the time at which the loop exits (`none` if the fuel runs out first). -/
def loopRun (interval signalAt : Nat) : Nat → Nat → Option Nat
  | 0, _ => none
  | fuel + 1, now =>
    if signalAt ≤ now then some now
    else loopRun interval signalAt fuel (now + interval)

-- ------------------------------ handle_new_episodes_pinning ------------------------------

/-- A visibility action issued against the remote service. -/
inductive PinAction where
  | pin (title : String)
  | unpin (title : String)
deriving DecidableEq

/-- Title test of `handle_new_episodes_pinning` (line 197):
`collection.title.lower() == "new episodes"`. -/
def isNewEpisodes (c : Collection) : Bool := c.title.toLower == "new episodes"

/-- `handle_new_episodes_pinning` (lines 182-216) for one library: walk the
collections in order; at the first whose lowered title is `"new episodes"`,
pin it if `always_pin_new_episodes` else unpin it, then `break`. -/
def handle_new_episodes_pinning (alwaysPin : Bool) : List Collection → List PinAction
  | [] => []
  | c :: rest =>
    if isNewEpisodes c then
      [if alwaysPin then .pin c.title else .unpin c.title]
    else
      handle_new_episodes_pinning alwaysPin rest

-- ------------------------------ Helper lemmas ------------------------------

/-- Removing the element at a valid index and putting it back in front is a
permutation of the original list. -/
theorem getD_cons_eraseIdx_perm {α : Type} :
    ∀ (l : List α) (j : Nat) (d : α), j < l.length →
      (l.getD j d :: l.eraseIdx j).Perm l := by
  intro l
  induction l with
  | nil => intro j d h; simp at h
  | cons a t ih =>
    intro j d h
    cases j with
    | zero => simp
    | succ j =>
      have hj : j < t.length := by simpa using h
      rw [List.getD_cons_succ, List.eraseIdx_cons_succ]
      exact (List.Perm.swap a (t.getD j d) (t.eraseIdx j)).trans
        (List.Perm.cons a (ih j d hj))

/-- The sample has `min k |pool|` elements, like Python's
`random.sample(pool, k)` for `k ≤ len(pool)`. -/
theorem sampleR_length {α : Type} :
    ∀ (k : Nat) (pool : List α) (rs : List Nat),
      (sampleR k pool rs).length = min k pool.length := by
  intro k
  induction k with
  | zero => intro pool rs; simp [sampleR]
  | succ k ih =>
    intro pool rs
    cases pool with
    | nil => simp [sampleR]
    | cons a t =>
      have hj : rs.headD 0 % (t.length + 1) < (a :: t).length :=
        Nat.mod_lt _ (Nat.succ_pos _)
      simp only [sampleR, List.length_cons]
      rw [ih, List.length_eraseIdx_of_lt hj]
      simp only [List.length_cons]
      omega

/-- Every sampled element comes from the pool. -/
theorem sampleR_subset {α : Type} :
    ∀ (k : Nat) (pool : List α) (rs : List Nat) (x : α),
      x ∈ sampleR k pool rs → x ∈ pool := by
  intro k
  induction k with
  | zero => intro pool rs x h; simp [sampleR] at h
  | succ k ih =>
    intro pool rs x h
    cases pool with
    | nil => simp [sampleR] at h
    | cons a t =>
      have hj : rs.headD 0 % (a :: t).length < (a :: t).length :=
        Nat.mod_lt _ (by simp)
      simp only [sampleR, List.mem_cons] at h
      rcases h with h | h
      · rw [h, List.getD_eq_getElem _ _ hj]
        exact List.getElem_mem hj
      · exact (List.eraseIdx_sublist _ _).subset (ih _ _ _ h)

/-- Sampling never repeats an element of a duplicate-free pool. -/
theorem sampleR_nodup {α : Type} :
    ∀ (k : Nat) (pool : List α) (rs : List Nat),
      pool.Nodup → (sampleR k pool rs).Nodup := by
  intro k
  induction k with
  | zero => intro pool rs _; simp [sampleR]
  | succ k ih =>
    intro pool rs hnd
    cases pool with
    | nil => simp [sampleR]
    | cons a t =>
      have hj : rs.headD 0 % (a :: t).length < (a :: t).length :=
        Nat.mod_lt _ (by simp)
      have hperm := getD_cons_eraseIdx_perm (a :: t)
        (rs.headD 0 % (a :: t).length) a hj
      have h2 := hperm.nodup_iff.mpr hnd
      rw [List.nodup_cons] at h2
      simp only [sampleR, List.nodup_cons]
      exact ⟨fun hx => h2.1 (sampleR_subset _ _ _ _ hx), ih _ _ h2.2⟩

/-- Membership in the eligible set is exactly the source's three conditions. -/
theorem mem_validCollections {minItems : Nat} {used : CooldownMap}
    {exemptions : List String} {cols : List Collection} {c : Collection} :
    c ∈ validCollections minItems used exemptions cols ↔
      c ∈ cols ∧ minItems ≤ c.itemCount ∧ c.title ∉ keysOf used ∧
        c.title ∉ exemptions := by
  simp [validCollections, isValidCollection, List.mem_filter, and_assoc]

/-- Keys after a Python-style dict assignment. -/
theorem mem_keysOf_dictInsert (m : CooldownMap) (k : String) (v : Nat) (j : String) :
    j ∈ keysOf (dictInsert m k v) ↔ j ∈ keysOf m ∨ j = k := by
  unfold dictInsert
  by_cases hc : k ∈ keysOf m
  · rw [if_pos hc]
    have hk : keysOf (m.map (fun p => if p.1 = k then (k, v) else p)) = keysOf m := by
      unfold keysOf
      rw [List.map_map]
      apply List.map_congr_left
      intro p _
      by_cases hp : p.1 = k
      · simp [hp]
      · simp [hp]
    rw [hk]
    constructor
    · exact Or.inl
    · rintro (h | rfl)
      · exact h
      · exact hc
  · rw [if_neg hc]
    unfold keysOf
    simp

/-- Keys after recording a cycle's pinned collections: the old keys plus the
pinned titles. -/
theorem mem_keysOf_recordPinned :
    ∀ (ps : List Collection) (m : CooldownMap) (e : Nat) (j : String),
      j ∈ keysOf (recordPinned ps m e) ↔
        j ∈ keysOf m ∨ j ∈ ps.map Collection.title := by
  intro ps
  induction ps with
  | nil => intro m e j; simp [recordPinned]
  | cons c cs ih =>
    intro m e j
    have hstep : recordPinned (c :: cs) m e = recordPinned cs (dictInsert m c.title e) e := by
      simp [recordPinned]
    rw [hstep, ih, mem_keysOf_dictInsert]
    simp
    tauto

/-- When the quota is satisfiable the selection step samples. -/
theorem selectStep_of_le {cols : List Collection} {Q minItems : Nat}
    {used : CooldownMap} {exemptions : List String} {rs : List Nat}
    (h : Q ≤ (validCollections minItems used exemptions cols).length) :
    selectStep cols Q minItems used exemptions rs =
      .selected (sampleR Q (validCollections minItems used exemptions cols) rs) := by
  unfold selectStep
  rw [if_neg (Nat.not_lt.mpr h), Nat.min_eq_right h]

/-- When each processed library satisfies its quota up to a library that does
not, the per-library loop `break`s exactly there: it reports `reset_needed`,
and the libraries after the failing one are never reached. -/
theorem processLibraries_break (cfg : Config) (day time : String) (used : CooldownMap)
    (exemptions : List String) (pinOk : String → Bool) (rsFor : String → List Nat) :
    ∀ (pre : List (String × List Collection)) (bad : String × List Collection)
      (post : List (String × List Collection)),
    (∀ lc ∈ pre, finalLimitFor cfg lc.1 day time ≤
        (validCollections cfg.minItems used exemptions lc.2).length) →
    ((validCollections cfg.minItems used exemptions bad.2).length <
        finalLimitFor cfg bad.1 day time) →
    ∃ p, processLibraries cfg day time used exemptions pinOk rsFor (pre ++ bad :: post) =
      (true, p, pre.map Prod.fst ++ [bad.1]) := by
  intro pre
  induction pre with
  | nil =>
    intro bad post _ hbad
    refine ⟨[], ?_⟩
    obtain ⟨bn, bc⟩ := bad
    have hsel : selectStep bc (finalLimitFor cfg bn day time) cfg.minItems used
        exemptions (rsFor bn) = .insufficient := by
      unfold selectStep
      rw [if_pos hbad]
    simp only [List.nil_append, processLibraries, hsel, List.map_nil]
  | cons hd tl ih =>
    intro bad post hpre hbad
    obtain ⟨name, cols⟩ := hd
    have hsuff := hpre (name, cols) (List.mem_cons_self _ _)
    obtain ⟨p, hp⟩ := ih bad post (fun lc hlc => hpre lc (List.mem_cons_of_mem _ hlc)) hbad
    refine ⟨pinSelected (sampleR (finalLimitFor cfg name day time)
      (validCollections cfg.minItems used exemptions cols) (rsFor name)) pinOk ++ p, ?_⟩
    simp only [List.cons_append, processLibraries, selectStep_of_le hsuff,
      List.append_eq, hp, List.map_cons]

/-- When every library satisfies its quota the loop never requests a reset. -/
theorem processLibraries_all_ok (cfg : Config) (day time : String) (used : CooldownMap)
    (exemptions : List String) (pinOk : String → Bool) (rsFor : String → List Nat) :
    ∀ libs : List (String × List Collection),
    (∀ lc ∈ libs, finalLimitFor cfg lc.1 day time ≤
        (validCollections cfg.minItems used exemptions lc.2).length) →
    (processLibraries cfg day time used exemptions pinOk rsFor libs).1 = false := by
  intro libs
  induction libs with
  | nil => intro _; simp [processLibraries]
  | cons hd tl ih =>
    intro h
    obtain ⟨name, cols⟩ := hd
    have hsuff := h (name, cols) (List.mem_cons_self _ _)
    simp only [processLibraries, selectStep_of_le hsuff]
    exact ih (fun lc hlc => h lc (List.mem_cons_of_mem _ hlc))

/-- The loop's cancellation skeleton: if the signal arrives at time `t` (not
before the loop starts, and before the fuel runs out), the loop exits at the
first cycle boundary at or after `t` — strictly less than one full sleep
interval after the signal, and congruent to the start time modulo the
interval. -/
theorem loopRun_exit (interval t : Nat) (hpos : 0 < interval) :
    ∀ (fuel now : Nat), now ≤ t → t ≤ now + fuel * interval →
    ∃ e, loopRun interval t (fuel + 1) now = some e ∧ t ≤ e ∧ e < t + interval ∧
      e % interval = now % interval := by
  intro fuel
  induction fuel with
  | zero =>
    intro now h1 h2
    have ht : t = now := by omega
    subst ht
    exact ⟨t, by simp [loopRun], le_refl t, by omega, rfl⟩
  | succ fuel ih =>
    intro now h1 h2
    rw [Nat.succ_mul] at h2
    by_cases hle : t ≤ now
    · have ht : t = now := le_antisymm hle h1
      subst ht
      exact ⟨t, by simp [loopRun], le_refl t, by omega, rfl⟩
    · push_neg at hle
      by_cases hnext : t ≤ now + interval
      · refine ⟨now + interval, ?_, hnext, by omega, by simp⟩
        show loopRun interval t (fuel + 1 + 1) now = some (now + interval)
        unfold loopRun
        rw [if_neg (by omega)]
        unfold loopRun
        rw [if_pos hnext]
      · push_neg at hnext
        obtain ⟨e, he, h3, h4, h5⟩ := ih (now + interval) (by omega) (by omega)
        refine ⟨e, ?_, h3, h4, by rw [h5]; simp⟩
        show loopRun interval t (fuel + 1 + 1) now = some e
        unfold loopRun
        rw [if_neg (by omega)]
        exact he

-- ------------------------------ Claim theorems ------------------------------

/-- Claim C1: for every collection list, exclusion map, exemption set and quota
`Q`, the eligible set is exactly the collections with `itemCount ≥ minItems`
whose title is in neither the exclusion map nor the exemption set; if the
eligible set has at least `Q` members the selection step returns exactly `Q`
distinct collections drawn from it, and if it has fewer the step signals
insufficiency and produces no selection. -/
theorem select_quota_spec (cols : List Collection) (Q minItems : Nat)
    (used : CooldownMap) (exemptions : List String) (rs : List Nat) :
    (∀ c : Collection, c ∈ validCollections minItems used exemptions cols ↔
      c ∈ cols ∧ minItems ≤ c.itemCount ∧ c.title ∉ keysOf used ∧
        c.title ∉ exemptions) ∧
    (Q ≤ (validCollections minItems used exemptions cols).length →
      ∃ l, selectStep cols Q minItems used exemptions rs = .selected l ∧
        l.length = Q ∧
        (∀ c ∈ l, c ∈ validCollections minItems used exemptions cols) ∧
        ((validCollections minItems used exemptions cols).Nodup → l.Nodup)) ∧
    ((validCollections minItems used exemptions cols).length < Q →
      selectStep cols Q minItems used exemptions rs = .insufficient) := by
  refine ⟨fun c => mem_validCollections, ?_, ?_⟩
  · intro h
    refine ⟨_, selectStep_of_le h, ?_, ?_, ?_⟩
    · rw [sampleR_length]
      omega
    · intro c hc
      exact sampleR_subset _ _ _ _ hc
    · intro hnd
      exact sampleR_nodup _ _ _ hnd
  · intro h
    unfold selectStep
    rw [if_pos h]

/-- Witness for C1 at the spec's end-to-end example: collections
`A(2), B(0), C(5)`, `minimum_items = 1`, quota 2 — the eligible set is
`{A, C}` and the step selects 2 distinct eligible collections. -/
theorem select_quota_spec_witness :
    2 ≤ (validCollections 1 [] [] [⟨"A", 2⟩, ⟨"B", 0⟩, ⟨"C", 5⟩]).length ∧
    ∃ l, selectStep [⟨"A", 2⟩, ⟨"B", 0⟩, ⟨"C", 5⟩] 2 1 [] [] [0, 0] = .selected l ∧
      l.length = 2 ∧
      (∀ c ∈ l, c ∈ validCollections 1 [] [] [⟨"A", 2⟩, ⟨"B", 0⟩, ⟨"C", 5⟩]) ∧
      ((validCollections 1 [] [] [⟨"A", 2⟩, ⟨"B", 0⟩, ⟨"C", 5⟩]).Nodup → l.Nodup) :=
  ⟨by decide,
    (select_quota_spec [⟨"A", 2⟩, ⟨"B", 0⟩, ⟨"C", 5⟩] 2 1 [] [] [0, 0]).2.1 (by decide)⟩

/-- Claim C2: no collection whose title is in the exclusion map or the
exemption set at call time ever appears in a selection result, for any input
ordering (the collection list, and everything else, is universally
quantified). -/
theorem selection_respects_exclusions (cols : List Collection) (Q minItems : Nat)
    (used : CooldownMap) (exemptions : List String) (rs : List Nat)
    (l : List Collection)
    (h : selectStep cols Q minItems used exemptions rs = .selected l) :
    ∀ c ∈ l, c.title ∉ keysOf used ∧ c.title ∉ exemptions := by
  intro c hc
  have hval : c ∈ validCollections minItems used exemptions cols := by
    unfold selectStep at h
    by_cases hq : (validCollections minItems used exemptions cols).length < Q
    · rw [if_pos hq] at h
      exact absurd h (by simp)
    · rw [if_neg hq] at h
      injection h with h2
      rw [← h2] at hc
      exact sampleR_subset _ _ _ _ hc
  have hm := mem_validCollections.mp hval
  exact ⟨hm.2.2.1, hm.2.2.2⟩

/-- Witness for C2: with cooldown entry `X` and exemption `Y`, the selected
collection `A` is in neither. -/
theorem selection_respects_exclusions_witness :
    (⟨"A", 2⟩ : Collection).title ∉ keysOf [("X", 4)] ∧
    (⟨"A", 2⟩ : Collection).title ∉ ["Y"] :=
  selection_respects_exclusions [⟨"A", 2⟩] 1 1 [("X", 4)] ["Y"] [0] [⟨"A", 2⟩]
    (by decide) ⟨"A", 2⟩ (by decide)

/-- Claim C3: `clean` keeps exactly the entries whose expiry is strictly after
the current date, and cleaning twice with the same date equals cleaning
once. -/
theorem clean_filter_idempotent (m : CooldownMap) (d : Nat) :
    (∀ p : String × Nat, p ∈ cleanCooldowns m d ↔ p ∈ m ∧ d < p.2) ∧
    cleanCooldowns (cleanCooldowns m d) d = cleanCooldowns m d := by
  constructor
  · intro p
    simp [cleanCooldowns, List.mem_filter]
  · show (cleanCooldowns m d).filter (fun p => decide (d < p.2)) = cleanCooldowns m d
    apply List.filter_eq_self.mpr
    intro p hp
    exact (List.mem_filter.mp hp).2

/-- Claim C4: when some library's eligible set is smaller than its quota (all
libraries before it being satisfiable), the cycle sets `reset_needed`, never
reaches the libraries after the failing one, clears the exclusion store to an
empty map, and restarts immediately without sleeping. -/
theorem insufficiency_resets_and_restarts (cfg : Config)
    (pre post : List (String × List Collection)) (bad : String × List Collection)
    (used0 : CooldownMap) (exemptions : List String) (today : Nat)
    (day time : String) (pinOk : String → Bool) (rsFor : String → List Nat)
    (hpre : ∀ lc ∈ pre, finalLimitFor cfg lc.1 day time ≤
        (validCollections cfg.minItems (cleanCooldowns used0 today) exemptions
          lc.2).length)
    (hbad : (validCollections cfg.minItems (cleanCooldowns used0 today) exemptions
        bad.2).length < finalLimitFor cfg bad.1 day time) :
    (runCycle cfg (pre ++ bad :: post) used0 exemptions today day time pinOk
      rsFor).resetNeeded = true ∧
    (runCycle cfg (pre ++ bad :: post) used0 exemptions today day time pinOk
      rsFor).usedAfter = [] ∧
    (runCycle cfg (pre ++ bad :: post) used0 exemptions today day time pinOk
      rsFor).slept = false ∧
    (runCycle cfg (pre ++ bad :: post) used0 exemptions today day time pinOk
      rsFor).attempted = pre.map Prod.fst ++ [bad.1] := by
  obtain ⟨p, hp⟩ := processLibraries_break cfg day time (cleanCooldowns used0 today)
    exemptions pinOk rsFor pre bad post hpre hbad
  simp [runCycle, hp]

/-- Configuration used by concrete cycle scenarios: library `A` has quota 0 and
library `B` quota 1, via `libraries_settings[..]["default_limit"]`. -/
def cfgTwoLibs : Config := ⟨1, 3, [], [("A", ⟨some 0, []⟩), ("B", ⟨some 1, []⟩)]⟩

/-- Witness for C4: library `B` (quota 1, no collections) is insufficient, so
the cycle resets, never reaches library `C`, clears the store and skips the
sleep. -/
theorem insufficiency_resets_and_restarts_witness :
    (runCycle cfgTwoLibs ([("A", [])] ++ ("B", []) :: [("C", [])]) [] [] 0 "Monday"
      "12:00" (fun _ => true) (fun _ => [])).resetNeeded = true ∧
    (runCycle cfgTwoLibs ([("A", [])] ++ ("B", []) :: [("C", [])]) [] [] 0 "Monday"
      "12:00" (fun _ => true) (fun _ => [])).usedAfter = [] ∧
    (runCycle cfgTwoLibs ([("A", [])] ++ ("B", []) :: [("C", [])]) [] [] 0 "Monday"
      "12:00" (fun _ => true) (fun _ => [])).slept = false ∧
    (runCycle cfgTwoLibs ([("A", [])] ++ ("B", []) :: [("C", [])]) [] [] 0 "Monday"
      "12:00" (fun _ => true) (fun _ => [])).attempted =
        [("A", ([] : List Collection))].map Prod.fst ++ ["B"] :=
  insufficiency_resets_and_restarts cfgTwoLibs [("A", [])] [("C", [])] ("B", [])
    [] [] 0 "Monday" "12:00" (fun _ => true) (fun _ => []) (by decide) (by decide)

/-- Configuration with no per-library settings: every library's quota falls
back to 5. -/
def cfgNoLimits : Config := ⟨1, 3, [], []⟩

/-- One library with no collections at all. -/
def libsEmptyL : List (String × List Collection) := [("L", [])]

/-- Counterexample to claim C5: a cycle whose insufficiency is not caused by
cooldowns (the library has no collections, quota 5) resets the store, and the
retry pass over the now-empty store triggers a further reset before any sleep
— the reset-and-retry branch is not bounded to one extra pass. -/
theorem reset_retry_counterexample :
    (runCycle cfgNoLimits libsEmptyL [("X", 9)] [] 0 "Monday" "12:00"
      (fun _ => true) (fun _ => [])).resetNeeded = true ∧
    (runCycle cfgNoLimits libsEmptyL [("X", 9)] [] 0 "Monday" "12:00"
      (fun _ => true) (fun _ => [])).usedAfter = [] ∧
    (runCycle cfgNoLimits libsEmptyL [] [] 0 "Monday" "12:00"
      (fun _ => true) (fun _ => [])).resetNeeded = true ∧
    (runCycle cfgNoLimits libsEmptyL [] [] 0 "Monday" "12:00"
      (fun _ => true) (fun _ => [])).slept = false :=
  ⟨rfl, rfl, rfl, rfl⟩

/-- Claim C5 amended: the retry pass after a reset triggers no further reset
provided every library's quota is satisfiable ignoring cooldowns, i.e. each
library has at least its quota of non-exempt collections with enough items;
when some library falls short for reasons other than cooldowns, the retry
pass resets again and the loop repeats without sleeping. -/
theorem reset_retry_amended (cfg : Config) (libraries : List (String × List Collection))
    (exemptions : List String) (today : Nat) (day time : String)
    (pinOk : String → Bool) (rsFor : String → List Nat)
    (h : ∀ lc ∈ libraries, finalLimitFor cfg lc.1 day time ≤
        (validCollections cfg.minItems [] exemptions lc.2).length) :
    (runCycle cfg libraries [] exemptions today day time pinOk rsFor).resetNeeded
      = false ∧
    (runCycle cfg libraries [] exemptions today day time pinOk rsFor).slept = true := by
  have hc : cleanCooldowns [] today = [] := rfl
  have hall := processLibraries_all_ok cfg day time [] exemptions pinOk rsFor
    libraries h
  simp [runCycle, hc, hall]

/-- Witness for the amended C5: with quota 0 for library `A`, the retry pass
over an empty store completes and sleeps. -/
theorem reset_retry_amended_witness :
    (runCycle cfgTwoLibs [("A", [])] [] [] 0 "Monday" "12:00" (fun _ => true)
      (fun _ => [])).resetNeeded = false ∧
    (runCycle cfgTwoLibs [("A", [])] [] [] 0 "Monday" "12:00" (fun _ => true)
      (fun _ => [])).slept = true :=
  reset_retry_amended cfgTwoLibs [("A", [])] [] 0 "Monday" "12:00" (fun _ => true)
    (fun _ => []) (by decide)

/-- Counterexample to claim C6: with a 100-unit interval and cancellation
signalled at time 1 — during the first sleep — the loop only exits at time
100, far beyond a 1-unit polling granularity; with a 50-unit interval it exits
at 50, so the latency depends on the configured interval (the sleep is one
uninterruptible `time.sleep(pinning_interval)` with no polling inside). -/
theorem sleep_cancellation_counterexample :
    loopRun 100 1 5 0 = some 100 ∧ ¬ (100 ≤ 1 + 1) ∧ loopRun 50 1 5 0 = some 50 :=
  ⟨rfl, by omega, rfl⟩

/-- Claim C6 amended: cancellation signalled at time `t` is honoured at the
next cycle boundary: the loop exits before running another cycle, at a
multiple of the interval within one full configured interval after the signal
(not within an interval-independent polling granularity). -/
theorem sleep_cancellation_amended (interval t fuel : Nat) (hpos : 0 < interval)
    (hfuel : t ≤ fuel * interval) :
    ∃ e, loopRun interval t (fuel + 1) 0 = some e ∧ t ≤ e ∧ e < t + interval ∧
      e % interval = 0 := by
  obtain ⟨e, he, h1, h2, h3⟩ := loopRun_exit interval t hpos fuel 0 (Nat.zero_le t)
    (by omega)
  exact ⟨e, he, h1, h2, by simpa using h3⟩

/-- Witness for the amended C6: interval 100, signal at time 1, exit by time
101 at a cycle boundary. -/
theorem sleep_cancellation_amended_witness :
    ∃ e, loopRun 100 1 2 0 = some e ∧ 1 ≤ e ∧ e < 1 + 100 ∧ e % 100 = 0 :=
  sleep_cancellation_amended 100 1 1 (by decide) (by decide)

/-- Counterexample to claim C7: on a present-but-unparseable file neither
loader returns an empty result — `json.load`'s decode error propagates out of
the function (only the absent-file case is handled). -/
theorem load_corrupt_counterexample :
    load_used_collections FileState.corrupt ≠ Except.ok [] ∧
    load_user_exemptions FileState.corrupt ≠ Except.ok [] ∧
    load_used_collections FileState.corrupt =
      Except.error "json.decoder.JSONDecodeError" ∧
    load_user_exemptions FileState.corrupt =
      Except.error "json.decoder.JSONDecodeError" :=
  ⟨by simp [load_used_collections], by simp [load_user_exemptions], rfl, rfl⟩

/-- Claim C7 amended: an absent file yields an empty map / empty list without
raising, and a parseable file yields its contents; but an unparseable file
makes both loaders raise (the error propagates to the caller, where `main`'s
outer handler logs it and terminates the run) instead of returning an empty
result. -/
theorem load_failsoft_amended :
    load_used_collections FileState.absent = Except.ok [] ∧
    load_user_exemptions FileState.absent = Except.ok [] ∧
    (∀ m, load_used_collections (FileState.parsed m) = Except.ok m) ∧
    (∀ l, load_user_exemptions (FileState.parsed l) = Except.ok l) ∧
    (∃ e, load_used_collections FileState.corrupt = Except.error e) ∧
    (∃ e, load_user_exemptions FileState.corrupt = Except.error e) :=
  ⟨rfl, rfl, fun _ => rfl, fun _ => rfl, ⟨_, rfl⟩, ⟨_, rfl⟩⟩

/-- Claim C8: a selected collection whose pin call fails is skipped — it is
absent from the cycle's pinned set while every successfully pinned selection
is present, and recording the pinned set adds no cooldown entry for the
failed title. -/
theorem pin_failure_skipped (toPin : List Collection) (pinOk : String → Bool)
    (used : CooldownMap) (expiry : Nat) (c : Collection)
    (_hc : c ∈ toPin) (hfail : pinOk c.title = false) :
    c ∉ pinSelected toPin pinOk ∧
    (∀ d ∈ toPin, pinOk d.title = true → d ∈ pinSelected toPin pinOk) ∧
    (c.title ∈ keysOf (recordPinned (pinSelected toPin pinOk) used expiry) ↔
      c.title ∈ keysOf used) := by
  refine ⟨?_, ?_, ?_⟩
  · intro hmem
    have hok := (List.mem_filter.mp hmem).2
    rw [hfail] at hok
    exact absurd hok (by simp)
  · intro d hd hok
    exact List.mem_filter.mpr ⟨hd, hok⟩
  · rw [mem_keysOf_recordPinned]
    constructor
    · rintro (h | h)
      · exact h
      · exfalso
        simp only [List.mem_map] at h
        obtain ⟨d, hd, hdt⟩ := h
        have hok := (List.mem_filter.mp hd).2
        rw [hdt, hfail] at hok
        exact absurd hok (by simp)
    · exact Or.inl

/-- Witness for C8: of the two selected collections `A` and `B`, pinning `A`
fails; `A` is skipped, `B` is pinned, and recording adds no entry for `A`. -/
theorem pin_failure_skipped_witness :
    (⟨"A", 1⟩ : Collection) ∉ pinSelected [⟨"A", 1⟩, ⟨"B", 1⟩]
      (fun t => decide (t = "B")) ∧
    (∀ d ∈ [(⟨"A", 1⟩ : Collection), ⟨"B", 1⟩], decide (d.title = "B") = true →
      d ∈ pinSelected [⟨"A", 1⟩, ⟨"B", 1⟩] (fun t => decide (t = "B"))) ∧
    ((⟨"A", 1⟩ : Collection).title ∈ keysOf (recordPinned
      (pinSelected [⟨"A", 1⟩, ⟨"B", 1⟩] (fun t => decide (t = "B"))) [] 3) ↔
      (⟨"A", 1⟩ : Collection).title ∈ keysOf []) :=
  pin_failure_skipped [⟨"A", 1⟩, ⟨"B", 1⟩] (fun t => decide (t = "B")) [] 3
    ⟨"A", 1⟩ (by decide) (by decide)

/-- Configuration whose top-level `default_limits` gives library `Movies` the
quota 7 but whose `libraries_settings` has no `default_limit` entry for it. -/
def cfgMoviesSeven : Config := ⟨1, 3, [("Movies", 7)], []⟩

/-- Counterexample to claim C9: with no matching block the resolver returns
`("Default", 7)` — the quota from the top-level `default_limits` — but the
limit the cycle actually uses for selection is
`libraries_settings["Movies"].get("default_limit", 5) = 5`, a different
config field, so the returned default quota is not the limit used. -/
theorem default_block_limit_counterexample :
    get_current_time_block cfgMoviesSeven "Movies" "Monday" "12:00" = ("Default", 7) ∧
    finalLimitFor cfgMoviesSeven "Movies" "Monday" "12:00" = 5 ∧ (7 : Nat) ≠ 5 :=
  ⟨rfl, rfl, by omega⟩

/-- Claim C9 amended: when no block of the current weekday contains the
current time, or the weekday has no blocks, or its block table is malformed,
the resolver returns the sentinel `"Default"` with the quota
`default_limits.get(library, 5)`; the selection step of the cycle then ignores
that returned quota and uses
`libraries_settings[library].get("default_limit", 5)` as its limit (the two
agree only when those two config fields agree). -/
theorem default_block_limit_amended (cfg : Config) (libraryName day time : String)
    (h : dayBlocksFor cfg libraryName day = DayBlocksData.malformed ∨
      (∀ bs, dayBlocksFor cfg libraryName day = DayBlocksData.blocks bs →
        bs.find? (fun p => timeInBlock time p.2) = none)) :
    get_current_time_block cfg libraryName day time =
      ("Default", (cfg.defaultLimits.lookup libraryName).getD 5) ∧
    finalLimitFor cfg libraryName day time = defaultLimitFor cfg libraryName := by
  have hblock : get_current_time_block cfg libraryName day time =
      ("Default", (cfg.defaultLimits.lookup libraryName).getD 5) := by
    unfold get_current_time_block
    rcases h with h | h
    · rw [h]
    · cases hd : dayBlocksFor cfg libraryName day with
      | malformed => rfl
      | blocks bs => simp [h bs hd]
  refine ⟨hblock, ?_⟩
  unfold finalLimitFor
  rw [hblock]
  simp

/-- Configuration for the amended C9 witness: library `TV` has one Monday
block `08:00-09:00`, a `default_limit` of 2, and a top-level default quota
of 9. -/
def cfgTvMorning : Config :=
  ⟨1, 3, [("TV", 9)],
    [("TV", ⟨some 2, [("Monday", .blocks [("Morning", ⟨"08:00", "09:00", some 4⟩)])]⟩)]⟩

/-- Witness for the amended C9: at `12:00` no Monday block matches, the
resolver returns `("Default", 9)` and the cycle's limit is the
`default_limit` 2. -/
theorem default_block_limit_amended_witness :
    get_current_time_block cfgTvMorning "TV" "Monday" "12:00" = ("Default", 9) ∧
    finalLimitFor cfgTvMorning "TV" "Monday" "12:00" = 2 := by
  have h := default_block_limit_amended cfgTvMorning "TV" "Monday" "12:00"
    (Or.inr (fun bs hbs => by
      have hd : dayBlocksFor cfgTvMorning "TV" "Monday" =
          DayBlocksData.blocks [("Morning", ⟨"08:00", "09:00", some 4⟩)] := rfl
      have hbs2 := hd.symm.trans hbs
      injection hbs2 with h2
      rw [← h2]
      rfl))
  exact ⟨h.1, h.2⟩

/-- Claim C10: the special-case handler toggles at most one collection per
library — the first whose lowered title is `"new episodes"` — pinning it when
the always-pin flag is set and unpinning it otherwise, and issues no action
for any other collection. -/
theorem new_episodes_single_toggle (alwaysPin : Bool) (cols : List Collection) :
    handle_new_episodes_pinning alwaysPin cols =
      ((cols.find? isNewEpisodes).map
        (fun c => if alwaysPin then PinAction.pin c.title
          else PinAction.unpin c.title)).toList ∧
    (handle_new_episodes_pinning alwaysPin cols).length ≤ 1 := by
  have key : ∀ cs : List Collection, handle_new_episodes_pinning alwaysPin cs =
      ((cs.find? isNewEpisodes).map
        (fun c => if alwaysPin then PinAction.pin c.title
          else PinAction.unpin c.title)).toList := by
    intro cs
    induction cs with
    | nil => rfl
    | cons c rest ih =>
      by_cases h : isNewEpisodes c
      · simp [handle_new_episodes_pinning, List.find?_cons_of_pos _ h, h]
      · rw [List.find?_cons_of_neg]
        · simp only [handle_new_episodes_pinning, h, if_neg, Bool.false_eq_true,
            ite_false]
          exact ih
        · simp [h]
  refine ⟨key cols, ?_⟩
  rw [key cols]
  cases cols.find? isNewEpisodes <;> simp
